import Mathlib

/-
  Verification of the core logic of the Majumdar_WorldRecipes web page
  (assets/js/app.js): recipe-data normalization, selection/render lookup,
  localized field resolution, HTML escaping, and the custom recipe
  generator.  JavaScript values parsed from JSON are shallowly embedded as
  the inductive `Json` below (numbers as integers, plus `undef` for the
  `undefined` that property lookups can produce); JavaScript property
  access, truthiness and the short-circuit `||` operator are embedded as
  explicit functions; code that can raise a TypeError (property access on
  `null`/`undefined`, `.map` on a non-array) is embedded in `Except Unit`.
-/

set_option maxHeartbeats 1000000

namespace WorldRecipes

/-- JavaScript values as parsed from JSON, extended with `undef` for the
JavaScript `undefined` produced by absent-property lookups. -/
inductive Json where
  | undef
  | null
  | bool (b : Bool)
  | num (n : Int)
  | str (s : String)
  | arr (xs : List Json)
  | obj (kvs : List (String × Json))

/-- Own-property lookup in an object literal (first binding wins; parsed
JSON objects have distinct keys).  Absent keys give `undef`. -/
def lookupField : List (String × Json) → String → Json
  | [], _ => Json.undef
  | (k, v) :: rest, key => if k == key then v else lookupField rest key

/-- JavaScript property access `v[key]` for values on which it does not
throw: objects look the key up, every other value yields `undefined`
(an array accessed with a non-index string key yields `undefined`). -/
def member : Json → String → Json
  | Json.obj kvs, key => lookupField kvs key
  | _, _ => Json.undef

/-- JavaScript truthiness of an embedded value. -/
def truthy : Json → Bool
  | Json.undef => false
  | Json.null => false
  | Json.bool b => b
  | Json.num n => n != 0
  | Json.str s => s != ""
  | Json.arr _ => true
  | Json.obj _ => true

/-- Property access on `null` or `undefined` throws a TypeError; on every
other value it succeeds. -/
def respondsToGet : Json → Bool
  | Json.null => false
  | Json.undef => false
  | _ => true

/-- JavaScript property access `v[key]`, with the TypeError on
`null`/`undefined` made explicit. -/
def jsGet (v : Json) (key : String) : Except Unit Json :=
  if respondsToGet v then Except.ok (member v key) else Except.error ()

/-- The JavaScript short-circuit `a || b` on embedded values: the first
operand when truthy, otherwise the second. -/
def jsOr (a b : Json) : Json := if truthy a then a else b

/-- `Array.isArray`. -/
def isArrB : Json → Bool
  | Json.arr _ => true
  | _ => false

/-- Whether a value is an object literal. -/
def isObjB : Json → Bool
  | Json.obj _ => true
  | _ => false

/-! ## Recipe normalization (`normalizeRecipes`, app.js lines 116-149) -/

/-- One flat record pushed by the format-A loop of `normalizeRecipes`.
The loop reads `r.id`, `r.title`, ..., `r.imageSourceName` off the raw
entry; each of these accesses throws exactly when the entry is
`null`/`undefined`, so the record is built under one `respondsToGet`
guard.  The id is the entry's own `id` when truthy, otherwise the
template string `` `${code}-${diet}-${idx}` ``. -/
def mkNormRecord (code diet : String) (idx : Nat) (entry : Json) :
    Except Unit Json :=
  if respondsToGet entry then
    Except.ok (Json.obj
      [ ("id", if truthy (member entry "id") then member entry "id"
               else Json.str (code ++ "-" ++ diet ++ "-" ++ toString idx)),
        ("countryCode", Json.str code),
        ("type", Json.str diet),
        ("title", member entry "title"),
        ("description", member entry "description"),
        ("ingredients", member entry "ingredients"),
        ("steps", member entry "steps"),
        ("imageUrl", member entry "imageUrl"),
        ("imageSourceUrl", member entry "imageSourceUrl"),
        ("imageSourceName", member entry "imageSourceName") ])
  else Except.error ()

/-- `list.forEach((r, idx) => out.push(...))` over one diet bucket,
starting at index `i`. -/
def normEntries (code diet : String) (i : Nat) :
    List Json → Except Unit (List Json)
  | [] => Except.ok []
  | entry :: rest =>
      match mkNormRecord code diet i entry with
      | Except.error e => Except.error e
      | Except.ok v =>
          match normEntries code diet (i + 1) rest with
          | Except.error e => Except.error e
          | Except.ok vs => Except.ok (v :: vs)

/-- `Array.isArray(byDiet[diet]) ? byDiet[diet] : []`, then the push loop.
The access `byDiet[diet]` throws when `byDiet` is `null`/`undefined`
(unreachable from `normCountry`, which has already checked truthiness). -/
def normBucket (code diet : String) (byDiet : Json) :
    Except Unit (List Json) :=
  if respondsToGet byDiet then
    match member byDiet diet with
    | Json.arr entries => normEntries code diet 0 entries
    | _ => Except.ok []
  else Except.error ()

/-- The per-country body of the format-A loop: skip falsy values
(`if (!byDiet) return;`), then process the `veg` and `nonveg` buckets. -/
def normCountry (code : String) (byDiet : Json) : Except Unit (List Json) :=
  if truthy byDiet then
    match normBucket code "veg" byDiet with
    | Except.error e => Except.error e
    | Except.ok v =>
        match normBucket code "nonveg" byDiet with
        | Except.error e => Except.error e
        | Except.ok nv => Except.ok (v ++ nv)
  else Except.ok []

/-- `Object.keys(raw).forEach(...)` over the key/value pairs in insertion
order. -/
def normPairs : List (String × Json) → Except Unit (List Json)
  | [] => Except.ok []
  | p :: rest =>
      match normCountry p.1 p.2 with
      | Except.error e => Except.error e
      | Except.ok here =>
          match normPairs rest with
          | Except.error e => Except.error e
          | Except.ok there => Except.ok (here ++ there)

/-- `normalizeRecipes(raw)`: a (truthy, non-array) object is treated as
format A (by-country buckets); an array is returned unchanged (format B);
anything else yields `[]`. -/
def normalizeRecipes : Json → Except Unit (List Json)
  | Json.obj kvs => normPairs kvs
  | Json.arr l => Except.ok l
  | _ => Except.ok []

/-! ## Specification-side description of format-A normalization -/

/-- The identifier synthesized for a record with no own id:
`` `${code}-${diet}-${idx}` ``. -/
def synthId (code diet : String) (idx : Nat) : String :=
  code ++ "-" ++ diet ++ "-" ++ toString idx

/-- The flat record the specification promises for one bucket entry: the
country code is the source key, the type is the bucket name, and the id is
the record's own id when present, otherwise synthesized from the country
code, the diet name and the entry's position. -/
def recordForSpec (code diet : String) (idx : Nat) (entry : Json) : Json :=
  Json.obj
    [ ("id", match member entry "id" with
             | Json.undef => Json.str (synthId code diet idx)
             | v => v),
      ("countryCode", Json.str code),
      ("type", Json.str diet),
      ("title", member entry "title"),
      ("description", member entry "description"),
      ("ingredients", member entry "ingredients"),
      ("steps", member entry "steps"),
      ("imageUrl", member entry "imageUrl"),
      ("imageSourceUrl", member entry "imageSourceUrl"),
      ("imageSourceName", member entry "imageSourceName") ]

/-- The entries of one diet bucket of a country value: the bucket when it
is an array, otherwise nothing. -/
def bucketArr (byDiet : Json) (diet : String) : List Json :=
  match member byDiet diet with
  | Json.arr l => l
  | _ => []

/-- Map with the position in the bucket, starting at `i`. -/
def mapIdxFrom (f : Nat → Json → Json) (i : Nat) : List Json → List Json
  | [] => []
  | x :: xs => f i x :: mapIdxFrom f (i + 1) xs

/-- Specification-side flat list for a by-country object: one record per
bucket entry, countries in key order, `veg` before `nonveg`. -/
def specRecords : List (String × Json) → List Json
  | [] => []
  | p :: rest =>
      (["veg", "nonveg"].flatMap fun diet =>
        mapIdxFrom (recordForSpec p.1 diet) 0 (bucketArr p.2 diet)) ++
      specRecords rest

/-- A record entry carries a usable id: its own `id` property is either
absent or a non-empty string. -/
def idOkB (entry : Json) : Bool :=
  match member entry "id" with
  | Json.undef => true
  | Json.str s => s != ""
  | _ => false

/-- Well-formed by-country input: every country value is an object, and
every entry of every `veg`/`nonveg` array bucket is a record object whose
id, when present, is a non-empty string. -/
def wfByCountry (kvs : List (String × Json)) : Bool :=
  kvs.all fun p => isObjB p.2 &&
    (["veg", "nonveg"].all fun diet =>
      (bucketArr p.2 diet).all fun entry => isObjB entry && idOkB entry)

/-- A country value "has the by-country shape" when its `veg` or `nonveg`
property is an array. -/
def hasArrayBucket (byDiet : Json) : Bool :=
  isArrB (member byDiet "veg") || isArrB (member byDiet "nonveg")

/-- An input has the by-country shape when it is an object in which some
key maps to a truthy value carrying a `veg`/`nonveg` array bucket. -/
def byCountryShaped : Json → Bool
  | Json.obj kvs => kvs.any fun p => truthy p.2 && hasArrayBucket p.2
  | _ => false

example : normalizeRecipes (Json.num 3) = Except.ok [] := rfl

example : normalizeRecipes (Json.arr [Json.num 1]) =
    Except.ok [Json.num 1] := rfl

example :
    normalizeRecipes
      (Json.obj [("US", Json.obj
        [("veg", Json.arr [Json.obj [("title", Json.str "Dal")]])])]) =
    Except.ok [Json.obj
      [ ("id", Json.str "US-veg-0"),
        ("countryCode", Json.str "US"),
        ("type", Json.str "veg"),
        ("title", Json.str "Dal"),
        ("description", Json.undef),
        ("ingredients", Json.undef),
        ("steps", Json.undef),
        ("imageUrl", Json.undef),
        ("imageSourceUrl", Json.undef),
        ("imageSourceName", Json.undef) ]] := rfl

/-! ## Localized field resolution (`getLocalizedField`, `getLocalizedArray`,
app.js lines 87-101) -/

/-- `typeof v === "object"` for embedded values: true exactly for `null`,
arrays and objects. -/
def typeofObject : Json → Bool
  | Json.null => true
  | Json.arr _ => true
  | Json.obj _ => true
  | _ => false

/-- `getLocalizedField(fieldValue)`: for a truthy object (arrays
included — the scalar resolver has no array check),
`fieldValue[lang] || fieldValue.en || ""`; otherwise `fieldValue || ""`. -/
def getLocalizedField (lang : String) (fieldValue : Json) : Json :=
  if truthy fieldValue && typeofObject fieldValue then
    jsOr (member fieldValue lang) (jsOr (member fieldValue "en") (Json.str ""))
  else jsOr fieldValue (Json.str "")

/-- `getLocalizedArray(arrValue)`: for a truthy non-array object,
`arrValue[lang] || arrValue.en || []`; otherwise
`Array.isArray(arrValue) ? arrValue : []`. -/
def getLocalizedArray (lang : String) (arrValue : Json) : Json :=
  if truthy arrValue && typeofObject arrValue && !isArrB arrValue then
    jsOr (member arrValue lang) (jsOr (member arrValue "en") (Json.arr []))
  else if isArrB arrValue then arrValue
  else Json.arr []

/-- Specification-side resolution rule for scalar localized fields (the
amended C5): a non-array mapping resolves to the active language's entry
when truthy, else the English entry when truthy, else the empty string;
a plain value is returned as-is when truthy and yields the empty string
when falsy; a plain array yields the empty string (the scalar resolver
funnels arrays down its mapping path, where they have no language
entries). -/
def localizedFieldSpec (lang : String) (v : Json) : Json :=
  match v with
  | Json.obj _ =>
      if truthy (member v lang) then member v lang
      else if truthy (member v "en") then member v "en"
      else Json.str ""
  | Json.arr _ => Json.str ""
  | _ => if truthy v then v else Json.str ""

/-- Specification-side resolution rule for array-valued localized fields
(the amended C5): a non-array mapping resolves to the active language's
entry when truthy, else the English entry when truthy, else the empty
list; a plain array is returned as-is; every other plain value yields the
empty list. -/
def localizedArraySpec (lang : String) (v : Json) : Json :=
  match v with
  | Json.obj _ =>
      if truthy (member v lang) then member v lang
      else if truthy (member v "en") then member v "en"
      else Json.arr []
  | Json.arr _ => v
  | _ => Json.arr []

/-! ## UI text and the selection/render pipeline
(`tUI`, `handleCountrySelect`, `renderMissing`, app.js lines 82-85,
157-161, 286-304) -/

/-- The `UI_TEXT` translation table. -/
def UI_TEXT : List (String × List (String × String)) :=
  [ ("en",
      [ ("pickCountry", "Select a country to see a recipe."),
        ("ingredients", "Ingredients"),
        ("steps", "Steps"),
        ("imageSource", "Image source"),
        ("missing", "No recipe found for this selection.") ]),
    ("de",
      [ ("pickCountry", "Wähle ein Land aus, um ein Rezept zu sehen."),
        ("ingredients", "Zutaten"),
        ("steps", "Schritte"),
        ("imageSource", "Bildquelle"),
        ("missing", "Kein Rezept für diese Auswahl gefunden.") ]),
    ("fr",
      [ ("pickCountry", "Choisis un pays pour voir une recette."),
        ("ingredients", "Ingrédients"),
        ("steps", "Étapes"),
        ("imageSource", "Source de l’image"),
        ("missing", "Aucune recette trouvée pour cette sélection.") ]),
    ("it",
      [ ("pickCountry", "Seleziona un paese per vedere una ricetta."),
        ("ingredients", "Ingredienti"),
        ("steps", "Passaggi"),
        ("imageSource", "Fonte immagine"),
        ("missing", "Nessuna ricetta trovata per questa selezione.") ]) ]

/-- Association-list lookup for the translation tables (JavaScript object
property access, with `undefined` modelled as `none`). -/
def lookupTable {α : Type} : List (String × α) → String → Option α
  | [], _ => none
  | (k, v) :: rest, key => if k == key then some v else lookupTable rest key

/-- The JavaScript `a || b` for the `tUI` chain, where `undefined` has
already been collapsed to the (equally falsy) empty string. -/
def jsOrStr (a b : String) : String := if a == "" then b else a

/-- `UI_TEXT[lang] && UI_TEXT[lang][key]`, with falsy results collapsed
to the empty string. -/
def uiLookup (lang key : String) : String :=
  match lookupTable UI_TEXT lang with
  | some tbl => (lookupTable tbl key).getD ""
  | none => ""

/-- `tUI(key)` for an active language `lang`:
`(UI_TEXT[lang] && UI_TEXT[lang][key]) || UI_TEXT.en[key] || key`. -/
def tUI (lang key : String) : String :=
  jsOrStr (uiLookup lang key) (jsOrStr (uiLookup "en" key) key)

/-- What the pipeline writes into the recipe card: either the localized
"missing" placeholder (`renderMissing`) or the matched record (handed to
`renderRecipe`). -/
inductive RenderResult where
  | missing (msg : String)
  | shown (recipe : Json)

/-- JavaScript strict equality `v === s` against a string: true exactly
when `v` is that string. -/
def strictEqStr (v : Json) (s : String) : Bool :=
  match v with
  | Json.str t => t == s
  | _ => false

/-- The `find` predicate `r.countryCode === code && r.type === diet`. -/
def matchesSel (code diet : String) (entry : Json) : Bool :=
  strictEqStr (member entry "countryCode") code &&
  strictEqStr (member entry "type") diet

/-- `recipes.find((r) => r.countryCode === code && r.type === diet)`:
the predicate's property accesses throw on `null`/`undefined` list
elements. -/
def findRecipe (code diet : String) : List Json → Except Unit (Option Json)
  | [] => Except.ok none
  | entry :: rest =>
      if respondsToGet entry then
        if matchesSel code diet entry then Except.ok (some entry)
        else findRecipe code diet rest
      else Except.error ()

/-- The pure core of `handleCountrySelect`: look up the first record
matching the selected country and diet; render the localized missing
message when there is none, otherwise render the match. -/
def handleCountrySelect (recipes : List Json) (code diet lang : String) :
    Except Unit RenderResult :=
  match findRecipe code diet recipes with
  | Except.error e => Except.error e
  | Except.ok none => Except.ok (RenderResult.missing (tUI lang "missing"))
  | Except.ok (some entry) => Except.ok (RenderResult.shown entry)

/-- Concrete canonical list used by witnesses. -/
def sampleRecipes : List Json :=
  [ Json.obj [("countryCode", Json.str "US"), ("type", Json.str "veg"),
      ("title", Json.str "Succotash")],
    Json.obj [("countryCode", Json.str "US"), ("type", Json.str "nonveg")] ]

/-! ## String helpers (JavaScript string methods on embedded strings) -/

/-- The whitespace forms relevant to `String.prototype.trim` here. -/
def isJsSpace (c : Char) : Bool :=
  c == ' ' || c == '\t' || c == '\n' || c == '\r' || c == '\x0b' || c == '\x0c'

/-- `s.trim()`. -/
def jsTrim (s : String) : String :=
  String.mk (((s.data.dropWhile isJsSpace).reverse.dropWhile isJsSpace).reverse)

/-- `s.toLowerCase()` (ASCII range, which covers the keyword table and
style names). -/
def jsToLower (s : String) : String := String.mk (s.data.map Char.toLower)

/-- `capitalize(s)`: trim, empty gives empty, otherwise uppercase the
first character and keep the rest. -/
def capitalize (s : String) : String :=
  match (jsTrim s).data with
  | [] => ""
  | c :: cs => String.mk (Char.toUpper c :: cs)

/-- `text.split(",")` accumulator: JavaScript splits on every comma and
keeps empty segments. -/
def splitCommaAux (acc : List Char) : List Char → List (List Char)
  | [] => [acc.reverse]
  | c :: cs =>
      if c == ',' then acc.reverse :: splitCommaAux [] cs
      else splitCommaAux (c :: acc) cs

/-- `text.split(",")`. -/
def jsSplitComma (s : String) : List String :=
  (splitCommaAux [] s.data).map String.mk

/-- `Array.prototype.join(sep)`. -/
def joinSep (sep : String) : List String → String
  | [] => ""
  | [x] => x
  | x :: xs => x ++ sep ++ joinSep sep xs

/-- `hay.includes(needle)` on character lists. -/
def containsSub (needle : List Char) : List Char → Bool
  | [] => needle.isEmpty
  | c :: t => needle.isPrefixOf (c :: t) || containsSub needle t

/-! ## Custom recipe generator (`parseIngredients`, `chooseStyle`,
`buildRecipe`, `styleName`, `listFew`, `capitalize`,
app.js lines 395-545) -/

/-- `parseIngredients(text)`: empty text gives no ingredients; otherwise
split on commas, trim each piece, drop empties, keep at most 18. -/
def parseIngredients (text : String) : List String :=
  if text == "" then []
  else (((jsSplitComma text).map jsTrim).filter fun s => s != "").take 18

/-- The `has(k)` test of `chooseStyle`:
`ingredients.some((i) => i.toLowerCase().includes(k))`. -/
def hasIngredient (ingredients : List String) (k : String) : Bool :=
  ingredients.any fun i => containsSub k.data (jsToLower i).data

/-- `chooseStyle(ingredients)`: the keyword-category tests in source
order, with `stirfry` when none hits. -/
def chooseStyle (ingredients : List String) : String :=
  if hasIngredient ingredients "pasta" || hasIngredient ingredients "spaghetti" ||
      hasIngredient ingredients "penne" || hasIngredient ingredients "noodle" then
    "pasta"
  else if hasIngredient ingredients "lettuce" || hasIngredient ingredients "spinach" ||
      hasIngredient ingredients "cucumber" then
    "salad"
  else if hasIngredient ingredients "broth" || hasIngredient ingredients "stock" ||
      hasIngredient ingredients "lentil" then
    "soup"
  else if hasIngredient ingredients "tortilla" || hasIngredient ingredients "wrap" ||
      hasIngredient ingredients "bread" then
    "wrap"
  else if hasIngredient ingredients "curry" || hasIngredient ingredients "garam" ||
      hasIngredient ingredients "coconut" then
    "curry"
  else "stirfry"

/-- `style === "auto" ? chooseStyle(ingredients) : style` from
`generateCustomRecipeFromForm`. -/
def resolveStyle (style : String) (ingredients : List String) : String :=
  if style == "auto" then chooseStyle ingredients else style

/-- The fixed keyword categories of `chooseStyle` in precedence order. -/
def styleCategories : List (String × List String) :=
  [ ("pasta", ["pasta", "spaghetti", "penne", "noodle"]),
    ("salad", ["lettuce", "spinach", "cucumber"]),
    ("soup", ["broth", "stock", "lentil"]),
    ("wrap", ["tortilla", "wrap", "bread"]),
    ("curry", ["curry", "garam", "coconut"]) ]

/-- Specification-side style choice: the first category in precedence
order one of whose keywords occurs in some lowercased ingredient, with
`stirfry` as the default. -/
def chooseStyleSpec (ingredients : List String) : String :=
  match styleCategories.find? (fun p => p.2.any (hasIngredient ingredients)) with
  | some p => p.1
  | none => "stirfry"

/-- `listFew(items)`: the first six non-empty trimmed items joined with
a comma, plus " and more" when more remain. -/
def listFew (items : List String) : String :=
  let nice := (items.map jsTrim).filter fun s => s != ""
  joinSep ", " (nice.take 6) ++ (if nice.length > 6 then " and more" else "")

/-- The result of a JavaScript object-literal lookup chained with
`|| fallback`: either a value (an own entry, or the fallback when the
lookup produced `undefined`), or — when the key names an
`Object.prototype` member — the truthy value inherited through the
prototype chain (a function, or the prototype object for `__proto__`),
which is neither a string nor an array, so the `||` fallback is not
taken. -/
inductive Lookup (α : Type) where
  | val (v : α)
  | inherited

/-- The own member names of `Object.prototype` in standard JavaScript:
for exactly these keys, property lookup on a plain object literal finds
a truthy inherited value instead of `undefined`. -/
def protoKey (s : String) : Bool :=
  s == "constructor" || s == "hasOwnProperty" || s == "isPrototypeOf" ||
  s == "propertyIsEnumerable" || s == "toLocaleString" || s == "toString" ||
  s == "valueOf" || s == "__proto__" || s == "__defineGetter__" ||
  s == "__defineSetter__" || s == "__lookupGetter__" || s == "__lookupSetter__"

/-- `styleName(style)`: `names[style] || "Recipe"`.  The six own table
keys give their display names; a key naming an `Object.prototype` member
finds the truthy inherited member through the prototype chain (so the
`||` fallback is not taken and the result is not a string); every other
key gives the `"Recipe"` fallback. -/
def styleName (style : String) : Lookup String :=
  if style == "stirfry" then Lookup.val "Stir-fry"
  else if style == "curry" then Lookup.val "Curry"
  else if style == "pasta" then Lookup.val "Pasta"
  else if style == "salad" then Lookup.val "Salad"
  else if style == "soup" then Lookup.val "Soup"
  else if style == "wrap" then Lookup.val "Wrap"
  else if protoKey style then Lookup.inherited
  else Lookup.val "Recipe"

/-- The spice note of `buildRecipe`. -/
def spiceNote (spice : String) : String :=
  if spice == "hot" then "Make it spicy with chili or hot sauce."
  else if spice == "medium" then "Add a little chili for a kick."
  else "Keep spices gentle."

/-- The protein suggestion of `buildRecipe`: the only step text that
depends on the diet flag. -/
def proteinHint (diet : String) : String :=
  if diet == "nonveg" then
    "Add a protein like chicken, eggs, or fish if you have it."
  else "Add chickpeas, tofu, beans, or paneer for protein."

/-- `ingredients[0] ? capitalize(ingredients[0]) : "Your ingredients"`. -/
def mainIngredient : List String → String
  | [] => "Your ingredients"
  | i :: _ => if i == "" then "Your ingredients" else capitalize i

/-- `stepsByStyle[style] || stepsByStyle.stirfry`: the fixed ordered step
template for the style.  The `stirfry` own key and the
`|| stepsByStyle.stirfry` fallback both yield the stir-fry template and
are collapsed into the final branch; a key naming an `Object.prototype`
member finds the truthy inherited member through the prototype chain
instead (not an array), so the fallback is not taken. -/
def stepsFor (style : String) (core : List String) (hint : String) :
    Lookup (List String) :=
  if style == "curry" then Lookup.val
    [ "Saute onion, garlic, and spices in oil until fragrant.",
      "Add: " ++ listFew core ++ " and stir to coat.",
      "Pour in water or coconut milk and simmer 10 to 15 minutes.",
      hint,
      "Adjust salt, add chili if desired, and finish with cilantro.",
      "Serve with rice, bread, or noodles." ]
  else if style == "pasta" then Lookup.val
    [ "Boil salted water and cook pasta until al dente.",
      "Saute aromatics in oil. Add chopped vegetables and cook until tender.",
      "Stir in: " ++ listFew core ++ " and a splash of pasta water to make a sauce.",
      hint,
      "Toss pasta with sauce. Taste and adjust salt and pepper.",
      "Top with cheese or herbs if you like." ]
  else if style == "salad" then Lookup.val
    [ "Wash and chop fresh ingredients.",
      "Combine: " ++ listFew core ++ " in a bowl.",
      "Make a dressing: olive oil + lemon (or vinegar) + salt + pepper.",
      hint,
      "Toss, taste, and adjust seasoning.",
      "Serve immediately." ]
  else if style == "soup" then Lookup.val
    [ "Saute onion, garlic, and spices in a pot.",
      "Add: " ++ listFew core ++ " and stir for 1 minute.",
      "Add broth or water. Simmer until everything is tender.",
      hint,
      "Blend partially for thickness if you want.",
      "Taste, adjust salt, and serve warm." ]
  else if style == "wrap" then Lookup.val
    [ "Warm your wrap or bread lightly.",
      "Cook a quick filling in a pan with oil and aromatics.",
      "Use: " ++ listFew core ++ " for the filling.",
      hint,
      "Add a sauce: yogurt, mayo, or a simple lemon dressing.",
      "Wrap tightly and serve." ]
  else if protoKey style then Lookup.inherited
  else Lookup.val
    [ "Prep ingredients: chop, slice, and pat dry anything wet.",
      "Heat a pan with oil. Cook aromatics first (onion, garlic, ginger).",
      "Add the rest: " ++ listFew core ++ ". Stir-fry until cooked.",
      "Season with salt, pepper, and optional soy or lemon.",
      hint,
      "Serve hot. Finish with herbs or a squeeze of lime." ]

/-- The output of `buildRecipe`. -/
structure BuiltRecipe where
  title : String
  description : String
  steps : List String

/-- `buildRecipe(style, ingredients, diet, spice)`.  When the style names
an `Object.prototype` member, `styleName(style)` is the truthy inherited
member rather than a string, and the description template throws a
TypeError at `styleName(style).toLowerCase()` before any record is
returned — made explicit in `Except`.  `styleName` and `stepsFor` hit
the prototype chain for exactly the same keys (`protoKey`), so the mixed
constructor combinations below cannot occur; the program throws at the
`.toLowerCase()` call precisely in the `inherited` case. -/
def buildRecipe (style : String) (ingredients : List String)
    (diet spice : String) : Except Unit BuiltRecipe :=
  match styleName style,
    stepsFor style
      (if ingredients.isEmpty then ["oil", "salt", "pepper", "onion"]
       else ingredients)
      (proteinHint diet) with
  | Lookup.val baseTitle, Lookup.val steps =>
      Except.ok
        { title := baseTitle ++ " with " ++ mainIngredient ingredients,
          description := "A quick " ++ jsToLower baseTitle ++
            " built from what you have. " ++ spiceNote spice,
          steps := steps }
  | _, _ => Except.error ()

/-- The position of the protein-suggestion step in each style's step
template: step 4 in the stir-fry template (also used for styles outside
the table), step 3 in the five others. -/
def proteinStepIndex (style : String) : Nat :=
  if style == "curry" || style == "pasta" || style == "salad" ||
      style == "soup" || style == "wrap" then 3
  else 4

/-- The six style keys present in the template tables. -/
def knownStyle (style : String) : Bool :=
  style == "stirfry" || style == "curry" || style == "pasta" ||
  style == "salad" || style == "soup" || style == "wrap"

/-! ## HTML escaping and `renderRecipe` (app.js lines 163-213) -/

/-- One `replaceAll` pass with a single-character pattern: JavaScript
scans left to right and never rescans replacement text. -/
def replaceAllChar (target : Char) (rep : List Char) : List Char → List Char
  | [] => []
  | c :: cs => (if c == target then rep else [c]) ++ replaceAllChar target rep cs

/-- The double-quote character. -/
def quoteChar : Char := Char.ofNat 34

/-- The single-quote character. -/
def apostChar : Char := Char.ofNat 39

/-- The five `replaceAll` passes of `escapeHtml` in source order:
ampersand, then angle brackets, then both quote forms. -/
def escapeHtmlChars (l : List Char) : List Char :=
  replaceAllChar apostChar "&#039;".data
    (replaceAllChar quoteChar "&quot;".data
      (replaceAllChar '>' "&gt;".data
        (replaceAllChar '<' "&lt;".data
          (replaceAllChar '&' "&amp;".data l))))

mutual

/-- `String(v)` for embedded values (numbers are integers, so decimal
rendering agrees with JavaScript). -/
def jsToString : Json → String
  | Json.undef => "undefined"
  | Json.null => "null"
  | Json.bool b => if b then "true" else "false"
  | Json.num n => toString n
  | Json.str s => s
  | Json.arr xs => jsToStringItems xs
  | Json.obj _ => "[object Object]"

/-- `Array.prototype.join(",")`, where `null` and `undefined` elements
render empty. -/
def jsToStringItems : List Json → String
  | [] => ""
  | [x] => if respondsToGet x then jsToString x else ""
  | x :: xs =>
      (if respondsToGet x then jsToString x else "") ++ "," ++
      jsToStringItems xs

end

/-- `escapeHtml(text)`: stringify `String(text || "")`, then the five
`replaceAll` passes. -/
def escapeHtml (text : Json) : String :=
  String.mk (escapeHtmlChars
    (jsToString (if truthy text then text else Json.str "")).data)

/-- The characters that must not survive escaping. -/
def badChar (c : Char) : Bool :=
  c == '<' || c == '>' || c == quoteChar || c == apostChar

/-- The five entity tails `escapeHtml` can produce after an ampersand. -/
def entityTail (l : List Char) : Bool :=
  "amp;".data.isPrefixOf l || "lt;".data.isPrefixOf l ||
  "gt;".data.isPrefixOf l || "quot;".data.isPrefixOf l ||
  "#039;".data.isPrefixOf l

/-- Escape-safety of a character list: no markup-significant character
survives, and every ampersand starts one of the five produced escape
entities. -/
def ampOk : List Char → Bool
  | [] => true
  | c :: cs => !badChar c && (!(c == '&') || entityTail cs) && ampOk cs

/-- Per-character description of the composed `replaceAll` pipeline. -/
def escChar (c : Char) : List Char :=
  if c == '&' then "&amp;".data
  else if c == '<' then "&lt;".data
  else if c == '>' then "&gt;".data
  else if c == quoteChar then "&quot;".data
  else if c == apostChar then "&#039;".data
  else [c]

/-- Character-wise form of the whole escape pipeline. -/
def flatEsc : List Char → List Char
  | [] => []
  | c :: cs => escChar c ++ flatEsc cs

/-- `.map` on a non-array value throws a TypeError. -/
def jsArrayElems : Json → Except Unit (List Json)
  | Json.arr l => Except.ok l
  | _ => Except.error ()

/-- The inner HTML written by `renderRecipe` (template whitespace
elided): every recipe-derived text — title, description, each
ingredient, each step, image URL, image source URL and name — is wrapped
in `escapeHtml`; headings come from `tUI`. -/
def renderedCard (lang : String) (recipe : Json)
    (ingredients steps : List Json) : String :=
  let title := getLocalizedField lang (member recipe "title")
  let desc := getLocalizedField lang (member recipe "description")
  let ingredientsHtml :=
    joinSep "" (ingredients.map fun i => "<li>" ++ escapeHtml i ++ "</li>")
  let stepsHtml :=
    joinSep "" (steps.map fun s => "<li>" ++ escapeHtml s ++ "</li>")
  let imgUrl := jsOr (member recipe "imageUrl") (Json.str "")
  let srcUrl := jsOr (member recipe "imageSourceUrl")
    (jsOr (member recipe "imageUrl") (Json.str "#"))
  let srcName := jsOr (member recipe "imageSourceName") (Json.str "Source")
  let imgBlock :=
    if truthy imgUrl then
      "<img class=\"recipe-image\" src=\"" ++ escapeHtml imgUrl ++
      "\" alt=\"" ++ escapeHtml title ++
      "\" loading=\"lazy\" /><p class=\"image-credit\">" ++
      tUI lang "imageSource" ++ ": <a href=\"" ++ escapeHtml srcUrl ++
      "\" target=\"_blank\" rel=\"noopener noreferrer\">" ++
      escapeHtml srcName ++ "</a></p>"
    else ""
  "<h2 class=\"recipe-title\">" ++ escapeHtml title ++
  "</h2><p class=\"recipe-desc\">" ++ escapeHtml desc ++ "</p>" ++
  imgBlock ++ "<div class=\"recipe-section\"><h3>" ++
  tUI lang "ingredients" ++ "</h3><ul>" ++ ingredientsHtml ++
  "</ul></div><div class=\"recipe-section\"><h3>" ++ tUI lang "steps" ++
  "</h3><ol>" ++ stepsHtml ++ "</ol></div>"

/-- `renderRecipe(recipe)` for an active language: resolve the localized
fields, require the resolved ingredient and step values to be arrays
(`.map` throws otherwise), and write the card. -/
def renderRecipe (lang : String) (recipe : Json) : Except Unit String :=
  if respondsToGet recipe then
    match jsArrayElems (getLocalizedArray lang (member recipe "ingredients")) with
    | Except.error e => Except.error e
    | Except.ok ingredients =>
        match jsArrayElems (getLocalizedArray lang (member recipe "steps")) with
        | Except.error e => Except.error e
        | Except.ok steps =>
            Except.ok (renderedCard lang recipe ingredients steps)
  else Except.error ()

/-- Concrete record used by the render witness. -/
def sampleRenderRecipe : Json :=
  Json.obj
    [ ("title", Json.obj [("en", Json.str "Tacos <al pastor>")]),
      ("description", Json.str "A & B"),
      ("ingredients", Json.arr [Json.str "beef"]),
      ("steps", Json.obj [("en", Json.arr [Json.str "cook"])]),
      ("imageUrl", Json.str "http://x/y.png") ]

/-! ## Lemmas about normalization -/

lemma truthy_respondsToGet (v : Json) (h : truthy v = true) :
    respondsToGet v = true := by
  cases v <;> simp_all [truthy, respondsToGet]

lemma mkNormRecord_eq (code diet : String) (i : Nat) (entry : Json)
    (h1 : isObjB entry = true) (h2 : idOkB entry = true) :
    mkNormRecord code diet i entry =
      Except.ok (recordForSpec code diet i entry) := by
  have hresp : respondsToGet entry = true := by
    cases entry <;> simp_all [isObjB, respondsToGet]
  rw [mkNormRecord, if_pos hresp, recordForSpec]
  cases hm : member entry "id" with
  | undef => rfl
  | str s =>
      simp only [idOkB, hm] at h2
      simp only [truthy]
      rw [if_pos h2]
  | null => simp only [idOkB, hm] at h2; exact Bool.noConfusion h2
  | bool b => simp only [idOkB, hm] at h2; exact Bool.noConfusion h2
  | num n => simp only [idOkB, hm] at h2; exact Bool.noConfusion h2
  | arr xs => simp only [idOkB, hm] at h2; exact Bool.noConfusion h2
  | obj l => simp only [idOkB, hm] at h2; exact Bool.noConfusion h2

lemma normEntries_eq (code diet : String) (i : Nat) (l : List Json)
    (h : l.all (fun entry => isObjB entry && idOkB entry) = true) :
    normEntries code diet i l =
      Except.ok (mapIdxFrom (recordForSpec code diet) i l) := by
  induction l generalizing i with
  | nil => rfl
  | cons entry rest ih =>
      rw [List.all_cons, Bool.and_eq_true, Bool.and_eq_true] at h
      rw [normEntries, mkNormRecord_eq code diet i entry h.1.1 h.1.2,
        ih (i + 1) h.2]
      rfl

lemma normBucket_eq (code diet : String) (byDiet : Json)
    (h1 : respondsToGet byDiet = true)
    (h2 : (bucketArr byDiet diet).all
      (fun entry => isObjB entry && idOkB entry) = true) :
    normBucket code diet byDiet =
      Except.ok (mapIdxFrom (recordForSpec code diet) 0
        (bucketArr byDiet diet)) := by
  rw [normBucket, if_pos h1]
  cases hm : member byDiet diet with
  | arr entries =>
      rw [bucketArr, hm] at h2 ⊢
      exact normEntries_eq code diet 0 entries h2
  | undef => rw [bucketArr, hm] at h2 ⊢; rfl
  | null => rw [bucketArr, hm] at h2 ⊢; rfl
  | bool b => rw [bucketArr, hm] at h2 ⊢; rfl
  | num n => rw [bucketArr, hm] at h2 ⊢; rfl
  | str s => rw [bucketArr, hm] at h2 ⊢; rfl
  | obj kvs => rw [bucketArr, hm] at h2 ⊢; rfl

lemma normCountry_eq (code : String) (byDiet : Json)
    (h1 : isObjB byDiet = true)
    (h2 : (["veg", "nonveg"].all fun diet =>
      (bucketArr byDiet diet).all fun entry =>
        isObjB entry && idOkB entry) = true) :
    normCountry code byDiet =
      Except.ok (["veg", "nonveg"].flatMap fun diet =>
        mapIdxFrom (recordForSpec code diet) 0 (bucketArr byDiet diet)) := by
  have htr : truthy byDiet = true := by
    cases byDiet <;> simp_all [isObjB, truthy]
  have hresp := truthy_respondsToGet byDiet htr
  simp only [List.all_cons, List.all_nil, Bool.and_eq_true,
    Bool.and_true] at h2
  rw [normCountry, if_pos htr,
    normBucket_eq code "veg" byDiet hresp h2.1,
    normBucket_eq code "nonveg" byDiet hresp h2.2]
  simp [List.flatMap]

/-- C1: for every non-array JSON object keyed by country code with
`veg`/`nonveg` array buckets (bucket entries being record objects whose
own id, when present, is a non-empty string), `normalizeRecipes` returns,
without throwing, one flat record per bucket entry in order: its
`countryCode` is the source key, its `type` is the bucket name, and its
id is the record's own id when present, otherwise synthesized from the
country code, the diet name and the entry's position in the bucket
(see `recordForSpec` and `specRecords`). -/
theorem normalizeRecipes_byCountry (kvs : List (String × Json))
    (h : wfByCountry kvs = true) :
    normalizeRecipes (Json.obj kvs) = Except.ok (specRecords kvs) := by
  rw [normalizeRecipes]
  induction kvs with
  | nil => rfl
  | cons p rest ih =>
      rw [wfByCountry, List.all_cons, Bool.and_eq_true,
        Bool.and_eq_true] at h
      rw [normPairs, normCountry_eq p.1 p.2 h.1.1 h.1.2,
        ih (by rw [wfByCountry]; exact h.2), specRecords]

/-- Witness for C1: a concrete two-entry by-country object, exercising
both the own-id and the synthesized-id paths. -/
def sampleByCountry : List (String × Json) :=
  [ ("US", Json.obj
      [ ("veg", Json.arr
          [ Json.obj [("title", Json.str "Dal")],
            Json.obj [("id", Json.str "us-custom")] ]),
        ("nonveg", Json.arr [Json.obj []]) ]),
    ("FR", Json.obj [("veg", Json.arr [])]) ]

theorem normalizeRecipes_byCountry_witness :
    wfByCountry sampleByCountry = true ∧
    normalizeRecipes (Json.obj sampleByCountry) =
      Except.ok (specRecords sampleByCountry) :=
  ⟨rfl, normalizeRecipes_byCountry sampleByCountry rfl⟩

/-- C4: `normalizeRecipes` is the identity on array inputs. -/
theorem normalizeRecipes_array_id (l : List Json) :
    normalizeRecipes (Json.arr l) = Except.ok l := rfl

/-- C3: on any input that is neither an array nor an object of the
by-country shape (a number, `null`, a string, a boolean, or a malformed
object none of whose truthy values carries a `veg`/`nonveg` array
bucket), `normalizeRecipes` returns the empty list and throws no
error. -/
theorem normalizeRecipes_other_shapes (raw : Json)
    (h1 : isArrB raw = false) (h2 : byCountryShaped raw = false) :
    normalizeRecipes raw = Except.ok [] := by
  cases raw with
  | arr l => simp [isArrB] at h1
  | obj kvs =>
      rw [normalizeRecipes]
      rw [byCountryShaped] at h2
      induction kvs with
      | nil => rfl
      | cons p rest ih =>
          rw [List.any_cons, Bool.or_eq_false_iff] at h2
          have hcountry : normCountry p.1 p.2 = Except.ok [] := by
            rw [normCountry]
            by_cases htr : truthy p.2 = true
            · rw [if_pos htr]
              have hresp := truthy_respondsToGet p.2 htr
              have hbuckets : hasArrayBucket p.2 = false := by
                have hh := h2.1
                rw [htr, Bool.true_and] at hh
                exact hh
              rw [hasArrayBucket, Bool.or_eq_false_iff] at hbuckets
              have hveg : normBucket p.1 "veg" p.2 = Except.ok [] := by
                rw [normBucket, if_pos hresp]
                cases hm : member p.2 "veg" with
                | arr l => rw [hm] at hbuckets; simp [isArrB] at hbuckets
                | undef => rfl
                | null => rfl
                | bool b => rfl
                | num n => rfl
                | str s => rfl
                | obj l => rfl
              have hnonveg : normBucket p.1 "nonveg" p.2 = Except.ok [] := by
                rw [normBucket, if_pos hresp]
                cases hm : member p.2 "nonveg" with
                | arr l => rw [hm] at hbuckets; simp [isArrB] at hbuckets
                | undef => rfl
                | null => rfl
                | bool b => rfl
                | num n => rfl
                | str s => rfl
                | obj l => rfl
              rw [hveg, hnonveg]
              rfl
            · rw [if_neg htr]
          rw [normPairs, hcountry, ih rfl h2.2]
          rfl
  | undef => rfl
  | null => rfl
  | bool b => rfl
  | num n => rfl
  | str s => rfl

/-- Witness for C3: a malformed object (one bucket container is a number,
the other's buckets are not arrays) yields the empty list without
error. -/
theorem normalizeRecipes_other_shapes_witness :
    (isArrB (Json.obj [("US", Json.num 7),
        ("FR", Json.obj [("veg", Json.str "nope")])]) = false ∧
     byCountryShaped (Json.obj [("US", Json.num 7),
        ("FR", Json.obj [("veg", Json.str "nope")])]) = false) ∧
    normalizeRecipes (Json.obj [("US", Json.num 7),
        ("FR", Json.obj [("veg", Json.str "nope")])]) = Except.ok [] :=
  ⟨⟨rfl, rfl⟩, normalizeRecipes_other_shapes _ rfl rfl⟩

/-! ## Selection/render pipeline (C2) -/

lemma findRecipe_eq_find (code diet : String) (recipes : List Json)
    (h : recipes.all respondsToGet = true) :
    findRecipe code diet recipes =
      Except.ok (recipes.find? (matchesSel code diet)) := by
  induction recipes with
  | nil => rfl
  | cons entry rest ih =>
      rw [List.all_cons, Bool.and_eq_true] at h
      rw [findRecipe, if_pos h.1]
      by_cases hmatch : matchesSel code diet entry = true
      · rw [if_pos hmatch, List.find?_cons_of_pos _ hmatch]
      · rw [if_neg hmatch, ih h.2,
          List.find?_cons_of_neg _ (by simpa using hmatch)]

/-- C2: for every country code and diet, when every canonical record
responds to property access, the pipeline displays the first record of
the list whose `countryCode` and `type` both match the selection, and
displays the `missing` message localized to the active language when no
record matches. -/
theorem handleCountrySelect_first_match (recipes : List Json)
    (code diet lang : String) (h : recipes.all respondsToGet = true) :
    handleCountrySelect recipes code diet lang =
      Except.ok (match recipes.find? (matchesSel code diet) with
        | some entry => RenderResult.shown entry
        | none => RenderResult.missing (tUI lang "missing")) := by
  rw [handleCountrySelect, findRecipe_eq_find code diet recipes h]
  cases recipes.find? (matchesSel code diet) with
  | none => rfl
  | some entry => rfl

/-- Witness for C2: selecting France (absent from the sample list) with
the active language German renders the German missing message. -/
theorem handleCountrySelect_first_match_witness :
    sampleRecipes.all respondsToGet = true ∧
    handleCountrySelect sampleRecipes "FR" "veg" "de" =
      Except.ok (RenderResult.missing
        "Kein Rezept für diese Auswahl gefunden.") :=
  ⟨rfl, handleCountrySelect_first_match sampleRecipes "FR" "veg" "de" rfl⟩

/-! ## Localized field resolution (C5) -/

/-- C5 counterexample: the claim says a plain non-mapping value is
returned as-is, but the resolver maps the plain value `false` to the
empty string, not to itself. -/
theorem getLocalizedField_falsy_counterexample :
    getLocalizedField "en" (Json.bool false) = Json.str "" ∧
    Json.str "" ≠ Json.bool false :=
  ⟨rfl, fun h => Json.noConfusion h⟩

/-- C5 (amended): both resolvers follow the amended resolution rule: a
non-array mapping resolves to the active language's entry when truthy,
else the English entry when truthy, else the empty default (empty string
for scalar fields, empty list for array fields); a plain value is
returned as-is by the scalar resolver only when truthy (falsy values
yield the empty string) and by the array resolver only when it is an
array; the scalar resolver sends plain arrays down its mapping path,
yielding the empty string. -/
theorem getLocalized_resolution (lang : String) (v : Json) :
    getLocalizedField lang v = localizedFieldSpec lang v ∧
    getLocalizedArray lang v = localizedArraySpec lang v := by
  cases v with
  | undef => exact ⟨rfl, rfl⟩
  | null => exact ⟨rfl, rfl⟩
  | arr xs => exact ⟨rfl, rfl⟩
  | obj kvs => exact ⟨rfl, rfl⟩
  | bool b =>
      refine ⟨?_, ?_⟩ <;>
        simp [getLocalizedField, getLocalizedArray, localizedFieldSpec,
          localizedArraySpec, typeofObject, isArrB, jsOr]
  | num n =>
      refine ⟨?_, ?_⟩ <;>
        simp [getLocalizedField, getLocalizedArray, localizedFieldSpec,
          localizedArraySpec, typeofObject, isArrB, jsOr]
  | str s =>
      refine ⟨?_, ?_⟩ <;>
        simp [getLocalizedField, getLocalizedArray, localizedFieldSpec,
          localizedArraySpec, typeofObject, isArrB, jsOr]

/-! ## HTML escaping (C6) -/

lemma replaceAllChar_append (t : Char) (rep l1 l2 : List Char) :
    replaceAllChar t rep (l1 ++ l2) =
      replaceAllChar t rep l1 ++ replaceAllChar t rep l2 := by
  induction l1 with
  | nil => rfl
  | cons c cs ih => simp [replaceAllChar, ih]

lemma escStages_single (c : Char) : escapeHtmlChars [c] = escChar c := by
  by_cases h1 : c = '&'
  · subst h1; rfl
  by_cases h2 : c = '<'
  · subst h2; rfl
  by_cases h3 : c = '>'
  · subst h3; rfl
  by_cases h4 : c = quoteChar
  · subst h4; rfl
  by_cases h5 : c = apostChar
  · subst h5; rfl
  have e1 := beq_eq_false_iff_ne.mpr h1
  have e2 := beq_eq_false_iff_ne.mpr h2
  have e3 := beq_eq_false_iff_ne.mpr h3
  have e4 := beq_eq_false_iff_ne.mpr h4
  have e5 := beq_eq_false_iff_ne.mpr h5
  simp [escapeHtmlChars, replaceAllChar, escChar, e1, e2, e3, e4, e5]

lemma escapeHtmlChars_eq_flatEsc : ∀ l, escapeHtmlChars l = flatEsc l
  | [] => rfl
  | c :: cs => by
      have hsplit : escapeHtmlChars (c :: cs) =
          escapeHtmlChars [c] ++ escapeHtmlChars cs := by
        show escapeHtmlChars ([c] ++ cs) = _
        simp only [escapeHtmlChars, replaceAllChar_append]
      rw [hsplit, escStages_single, escapeHtmlChars_eq_flatEsc cs, flatEsc]

lemma ampOk_escChar (c : Char) (rest : List Char) (h : ampOk rest = true) :
    ampOk (escChar c ++ rest) = true := by
  by_cases h1 : c = '&'
  · subst h1
    show ampOk ('&' :: 'a' :: 'm' :: 'p' :: ';' :: rest) = true
    simp [ampOk, badChar, entityTail, h]
    all_goals decide
  by_cases h2 : c = '<'
  · subst h2
    show ampOk ('&' :: 'l' :: 't' :: ';' :: rest) = true
    simp [ampOk, badChar, entityTail, h]
    all_goals decide
  by_cases h3 : c = '>'
  · subst h3
    show ampOk ('&' :: 'g' :: 't' :: ';' :: rest) = true
    simp [ampOk, badChar, entityTail, h]
    all_goals decide
  by_cases h4 : c = quoteChar
  · subst h4
    show ampOk ('&' :: 'q' :: 'u' :: 'o' :: 't' :: ';' :: rest) = true
    simp [ampOk, badChar, entityTail, h]
    all_goals decide
  by_cases h5 : c = apostChar
  · subst h5
    show ampOk ('&' :: '#' :: '0' :: '3' :: '9' :: ';' :: rest) = true
    simp [ampOk, badChar, entityTail, h]
    all_goals decide
  have e1 := beq_eq_false_iff_ne.mpr h1
  have e2 := beq_eq_false_iff_ne.mpr h2
  have e3 := beq_eq_false_iff_ne.mpr h3
  have e4 := beq_eq_false_iff_ne.mpr h4
  have e5 := beq_eq_false_iff_ne.mpr h5
  have hesc : escChar c = [c] := by simp [escChar, e1, e2, e3, e4, e5]
  rw [hesc]
  show ampOk (c :: rest) = true
  simp [ampOk, badChar, e1, e2, e3, e4, e5, h]

lemma ampOk_flatEsc (l : List Char) : ampOk (flatEsc l) = true := by
  induction l with
  | nil => rfl
  | cons c cs ih => rw [flatEsc]; exact ampOk_escChar c (flatEsc cs) ih

/-- C6: every output of `escapeHtml`'s character pipeline contains none
of the markup characters and every ampersand in it starts one of the
five escape entities the pipeline produces (first for raw strings, then
for arbitrary stringified values); and `renderRecipe` writes exactly the
card `renderedCard`, in which every recipe-derived text — title,
description, each ingredient, each step, image URL and image credit
fields — is wrapped in `escapeHtml` before insertion. -/
theorem escapeHtml_renderRecipe_safe :
    (∀ s : String, ampOk (escapeHtmlChars s.data) = true) ∧
    (∀ t : Json, ampOk (escapeHtml t).data = true) ∧
    (∀ (lang : String) (recipe : Json) (ingredients steps : List Json),
      respondsToGet recipe = true →
      jsArrayElems (getLocalizedArray lang (member recipe "ingredients")) =
        Except.ok ingredients →
      jsArrayElems (getLocalizedArray lang (member recipe "steps")) =
        Except.ok steps →
      renderRecipe lang recipe =
        Except.ok (renderedCard lang recipe ingredients steps)) := by
  refine ⟨?_, ?_, ?_⟩
  · intro s
    rw [escapeHtmlChars_eq_flatEsc]
    exact ampOk_flatEsc s.data
  · intro t
    show ampOk (escapeHtmlChars
      (jsToString (if truthy t then t else Json.str "")).data) = true
    rw [escapeHtmlChars_eq_flatEsc]
    exact ampOk_flatEsc _
  · intro lang recipe ingredients steps h1 h2 h3
    rw [renderRecipe, if_pos h1, h2, h3]

/-- Witness for C6: the sample record renders to its escaped card. -/
theorem escapeHtml_renderRecipe_safe_witness :
    (respondsToGet sampleRenderRecipe = true ∧
     jsArrayElems (getLocalizedArray "en"
       (member sampleRenderRecipe "ingredients")) =
         Except.ok [Json.str "beef"] ∧
     jsArrayElems (getLocalizedArray "en"
       (member sampleRenderRecipe "steps")) =
         Except.ok [Json.str "cook"]) ∧
    renderRecipe "en" sampleRenderRecipe =
      Except.ok (renderedCard "en" sampleRenderRecipe
        [Json.str "beef"] [Json.str "cook"]) :=
  ⟨⟨rfl, rfl, rfl⟩,
    escapeHtml_renderRecipe_safe.2.2 "en" sampleRenderRecipe
      [Json.str "beef"] [Json.str "cook"] rfl rfl rfl⟩

/-! ## Style choice (C7) -/

lemma chooseStyle_eq_spec (ings : List String) :
    chooseStyle ings = chooseStyleSpec ings := by
  rw [chooseStyle, chooseStyleSpec, styleCategories]
  by_cases h1 : (hasIngredient ings "pasta" || hasIngredient ings "spaghetti" ||
      hasIngredient ings "penne" || hasIngredient ings "noodle") = true
  · rw [if_pos h1, List.find?_cons_of_pos _ (by
      simpa only [List.any_cons, List.any_nil, Bool.or_assoc, Bool.or_false]
        using h1)]
  rw [if_neg h1, List.find?_cons_of_neg _ (by
    simpa only [List.any_cons, List.any_nil, Bool.or_assoc, Bool.or_false]
      using h1)]
  by_cases h2 : (hasIngredient ings "lettuce" || hasIngredient ings "spinach" ||
      hasIngredient ings "cucumber") = true
  · rw [if_pos h2, List.find?_cons_of_pos _ (by
      simpa only [List.any_cons, List.any_nil, Bool.or_assoc, Bool.or_false]
        using h2)]
  rw [if_neg h2, List.find?_cons_of_neg _ (by
    simpa only [List.any_cons, List.any_nil, Bool.or_assoc, Bool.or_false]
      using h2)]
  by_cases h3 : (hasIngredient ings "broth" || hasIngredient ings "stock" ||
      hasIngredient ings "lentil") = true
  · rw [if_pos h3, List.find?_cons_of_pos _ (by
      simpa only [List.any_cons, List.any_nil, Bool.or_assoc, Bool.or_false]
        using h3)]
  rw [if_neg h3, List.find?_cons_of_neg _ (by
    simpa only [List.any_cons, List.any_nil, Bool.or_assoc, Bool.or_false]
      using h3)]
  by_cases h4 : (hasIngredient ings "tortilla" || hasIngredient ings "wrap" ||
      hasIngredient ings "bread") = true
  · rw [if_pos h4, List.find?_cons_of_pos _ (by
      simpa only [List.any_cons, List.any_nil, Bool.or_assoc, Bool.or_false]
        using h4)]
  rw [if_neg h4, List.find?_cons_of_neg _ (by
    simpa only [List.any_cons, List.any_nil, Bool.or_assoc, Bool.or_false]
      using h4)]
  by_cases h5 : (hasIngredient ings "curry" || hasIngredient ings "garam" ||
      hasIngredient ings "coconut") = true
  · rw [if_pos h5, List.find?_cons_of_pos _ (by
      simpa only [List.any_cons, List.any_nil, Bool.or_assoc, Bool.or_false]
        using h5)]
  rw [if_neg h5, List.find?_cons_of_neg _ (by
    simpa only [List.any_cons, List.any_nil, Bool.or_assoc, Bool.or_false]
      using h5)]
  rfl

/-- C7: with style `auto`, the generator picks the style of the first
keyword category (in the fixed precedence order pasta, salad, soup,
wrap, curry) one of whose keywords occurs case-insensitively in some
ingredient, defaulting to `stirfry`; in particular any ingredient list
containing a pasta-indicating keyword resolves to `pasta`. -/
theorem chooseStyle_precedence :
    (∀ ings : List String, resolveStyle "auto" ings = chooseStyleSpec ings) ∧
    (∀ ings : List String,
      (hasIngredient ings "pasta" || hasIngredient ings "spaghetti" ||
       hasIngredient ings "penne" || hasIngredient ings "noodle") = true →
      resolveStyle "auto" ings = "pasta") := by
  constructor
  · intro ings
    show chooseStyle ings = chooseStyleSpec ings
    exact chooseStyle_eq_spec ings
  · intro ings h
    show chooseStyle ings = "pasta"
    rw [chooseStyle, if_pos h]

/-- Witness for C7: "Spaghetti sauce" resolves to the pasta style. -/
theorem chooseStyle_precedence_witness :
    (hasIngredient ["Spaghetti sauce"] "pasta" ||
     hasIngredient ["Spaghetti sauce"] "spaghetti" ||
     hasIngredient ["Spaghetti sauce"] "penne" ||
     hasIngredient ["Spaghetti sauce"] "noodle") = true ∧
    resolveStyle "auto" ["Spaghetti sauce"] = "pasta" :=
  ⟨by decide, chooseStyle_precedence.2 ["Spaghetti sauce"] (by decide)⟩

/-! ## Diet frame property of `buildRecipe` (C8) -/

lemma frame_at3 (a0 a1 a2 a4 a5 hv hn : String) :
    ∀ i : Nat, i ≠ 3 →
      [a0, a1, a2, hv, a4, a5].get? i = [a0, a1, a2, hn, a4, a5].get? i
  | 0, _ => rfl
  | 1, _ => rfl
  | 2, _ => rfl
  | 3, h => absurd rfl h
  | 4, _ => rfl
  | 5, _ => rfl
  | (_ + 6), _ => rfl

lemma frame_at4 (a0 a1 a2 a3 a5 hv hn : String) :
    ∀ i : Nat, i ≠ 4 →
      [a0, a1, a2, a3, hv, a5].get? i = [a0, a1, a2, a3, hn, a5].get? i
  | 0, _ => rfl
  | 1, _ => rfl
  | 2, _ => rfl
  | 3, _ => rfl
  | 4, h => absurd rfl h
  | 5, _ => rfl
  | (_ + 6), _ => rfl

lemma beq_false_of_proto (style key : String) (h : protoKey style = true)
    (hk : protoKey key = false) : (style == key) = false := by
  by_cases hx : (style == key) = true
  · rw [eq_of_beq hx] at h
    rw [h] at hk
    exact Bool.noConfusion hk
  · simpa using hx

lemma styleName_proto (style : String) (h : protoKey style = true) :
    styleName style = Lookup.inherited := by
  rw [styleName,
    if_neg (by simp [beq_false_of_proto style "stirfry" h (by decide)]),
    if_neg (by simp [beq_false_of_proto style "curry" h (by decide)]),
    if_neg (by simp [beq_false_of_proto style "pasta" h (by decide)]),
    if_neg (by simp [beq_false_of_proto style "salad" h (by decide)]),
    if_neg (by simp [beq_false_of_proto style "soup" h (by decide)]),
    if_neg (by simp [beq_false_of_proto style "wrap" h (by decide)]),
    if_pos h]

lemma stepsFor_proto (style : String) (core : List String) (hint : String)
    (h : protoKey style = true) :
    stepsFor style core hint = Lookup.inherited := by
  rw [stepsFor,
    if_neg (by simp [beq_false_of_proto style "curry" h (by decide)]),
    if_neg (by simp [beq_false_of_proto style "pasta" h (by decide)]),
    if_neg (by simp [beq_false_of_proto style "salad" h (by decide)]),
    if_neg (by simp [beq_false_of_proto style "soup" h (by decide)]),
    if_neg (by simp [beq_false_of_proto style "wrap" h (by decide)]),
    if_pos h]

lemma styleName_default (style : String)
    (hs : (style == "stirfry") = false) (hc : (style == "curry") = false)
    (hpa : (style == "pasta") = false) (hsa : (style == "salad") = false)
    (hso : (style == "soup") = false) (hw : (style == "wrap") = false)
    (hp : protoKey style = false) :
    styleName style = Lookup.val "Recipe" := by
  rw [styleName, if_neg (by simp [hs]), if_neg (by simp [hc]),
    if_neg (by simp [hpa]), if_neg (by simp [hsa]), if_neg (by simp [hso]),
    if_neg (by simp [hw]), if_neg (by simp [hp])]

lemma stepsFor_default (style : String) (core : List String) (hint : String)
    (hc : (style == "curry") = false) (hpa : (style == "pasta") = false)
    (hsa : (style == "salad") = false) (hso : (style == "soup") = false)
    (hw : (style == "wrap") = false) (hp : protoKey style = false) :
    stepsFor style core hint = Lookup.val
      [ "Prep ingredients: chop, slice, and pat dry anything wet.",
        "Heat a pan with oil. Cook aromatics first (onion, garlic, ginger).",
        "Add the rest: " ++ listFew core ++ ". Stir-fry until cooked.",
        "Season with salt, pepper, and optional soy or lemon.",
        hint,
        "Serve hot. Finish with herbs or a squeeze of lime." ] := by
  rw [stepsFor, if_neg (by simp [hc]), if_neg (by simp [hpa]),
    if_neg (by simp [hsa]), if_neg (by simp [hso]), if_neg (by simp [hw]),
    if_neg (by simp [hp])]

/-- C8 counterexample: at the fixed style "valueOf" — a member name of
`Object.prototype` — the program produces no step lists at all: for both
diet flags `buildRecipe` throws a TypeError at
`styleName(style).toLowerCase()` (the prototype-chain lookup found the
inherited, non-string `Object.prototype.valueOf`), so there are no "two
resulting step lists" to compare. -/
theorem buildRecipe_diet_frame_counterexample :
    buildRecipe "valueOf" ["beef"] "veg" "mild" = Except.error () ∧
    buildRecipe "valueOf" ["beef"] "nonveg" "mild" = Except.error () :=
  ⟨rfl, rfl⟩

/-- C8 (amended): switching the diet flag between `veg` and `nonveg`
never changes anything but the protein-suggestion step: for a style
naming an `Object.prototype` member, `buildRecipe` throws a TypeError
for both diet flags alike (producing no step lists); for every other
style it returns for both flags, with identical title, description and
step count, the respective protein suggestion at the protein step, and
every other step identical. -/
theorem buildRecipe_diet_frame (style : String) (ings : List String)
    (spice : String) :
    (protoKey style = true →
      buildRecipe style ings "veg" spice = Except.error () ∧
      buildRecipe style ings "nonveg" spice = Except.error ()) ∧
    (protoKey style = false →
      ∃ v n, buildRecipe style ings "veg" spice = Except.ok v ∧
        buildRecipe style ings "nonveg" spice = Except.ok n ∧
        v.title = n.title ∧
        v.description = n.description ∧
        v.steps.length = n.steps.length ∧
        v.steps.get? (proteinStepIndex style) = some (proteinHint "veg") ∧
        n.steps.get? (proteinStepIndex style) = some (proteinHint "nonveg") ∧
        ∀ i : Nat, i ≠ proteinStepIndex style →
          v.steps.get? i = n.steps.get? i) := by
  constructor
  · intro hp
    constructor
    · rw [buildRecipe, styleName_proto style hp, stepsFor_proto style _ _ hp]
    · rw [buildRecipe, styleName_proto style hp, stepsFor_proto style _ _ hp]
  · intro hp
    by_cases h1 : style = "stirfry"
    · subst h1
      exact ⟨_, _, rfl, rfl, rfl, rfl, rfl, rfl, rfl,
        frame_at4 _ _ _ _ _ _ _⟩
    by_cases h2 : style = "curry"
    · subst h2
      exact ⟨_, _, rfl, rfl, rfl, rfl, rfl, rfl, rfl,
        frame_at3 _ _ _ _ _ _ _⟩
    by_cases h3 : style = "pasta"
    · subst h3
      exact ⟨_, _, rfl, rfl, rfl, rfl, rfl, rfl, rfl,
        frame_at3 _ _ _ _ _ _ _⟩
    by_cases h4 : style = "salad"
    · subst h4
      exact ⟨_, _, rfl, rfl, rfl, rfl, rfl, rfl, rfl,
        frame_at3 _ _ _ _ _ _ _⟩
    by_cases h5 : style = "soup"
    · subst h5
      exact ⟨_, _, rfl, rfl, rfl, rfl, rfl, rfl, rfl,
        frame_at3 _ _ _ _ _ _ _⟩
    by_cases h6 : style = "wrap"
    · subst h6
      exact ⟨_, _, rfl, rfl, rfl, rfl, rfl, rfl, rfl,
        frame_at3 _ _ _ _ _ _ _⟩
    have e1 := beq_eq_false_iff_ne.mpr h1
    have e2 := beq_eq_false_iff_ne.mpr h2
    have e3 := beq_eq_false_iff_ne.mpr h3
    have e4 := beq_eq_false_iff_ne.mpr h4
    have e5 := beq_eq_false_iff_ne.mpr h5
    have e6 := beq_eq_false_iff_ne.mpr h6
    have hsn := styleName_default style e1 e2 e3 e4 e5 e6 hp
    have hsv := stepsFor_default style
      (if ings.isEmpty then ["oil", "salt", "pepper", "onion"] else ings)
      (proteinHint "veg") e2 e3 e4 e5 e6 hp
    have hsw := stepsFor_default style
      (if ings.isEmpty then ["oil", "salt", "pepper", "onion"] else ings)
      (proteinHint "nonveg") e2 e3 e4 e5 e6 hp
    have hidx : proteinStepIndex style = 4 := by
      simp [proteinStepIndex, e2, e3, e4, e5, e6]
    have hbv : buildRecipe style ings "veg" spice = Except.ok
        { title := "Recipe" ++ " with " ++ mainIngredient ings,
          description := "A quick " ++ jsToLower "Recipe" ++
            " built from what you have. " ++ spiceNote spice,
          steps :=
            [ "Prep ingredients: chop, slice, and pat dry anything wet.",
              "Heat a pan with oil. Cook aromatics first (onion, garlic, ginger).",
              "Add the rest: " ++ listFew (if ings.isEmpty then
                ["oil", "salt", "pepper", "onion"] else ings) ++
                ". Stir-fry until cooked.",
              "Season with salt, pepper, and optional soy or lemon.",
              proteinHint "veg",
              "Serve hot. Finish with herbs or a squeeze of lime." ] } := by
      rw [buildRecipe, hsn, hsv]
    have hbn : buildRecipe style ings "nonveg" spice = Except.ok
        { title := "Recipe" ++ " with " ++ mainIngredient ings,
          description := "A quick " ++ jsToLower "Recipe" ++
            " built from what you have. " ++ spiceNote spice,
          steps :=
            [ "Prep ingredients: chop, slice, and pat dry anything wet.",
              "Heat a pan with oil. Cook aromatics first (onion, garlic, ginger).",
              "Add the rest: " ++ listFew (if ings.isEmpty then
                ["oil", "salt", "pepper", "onion"] else ings) ++
                ". Stir-fry until cooked.",
              "Season with salt, pepper, and optional soy or lemon.",
              proteinHint "nonveg",
              "Serve hot. Finish with herbs or a squeeze of lime." ] } := by
      rw [buildRecipe, hsn, hsw]
    refine ⟨_, _, hbv, hbn, rfl, rfl, rfl, ?_, ?_, ?_⟩
    · rw [hidx]; rfl
    · rw [hidx]; rfl
    · rw [hidx]
      exact frame_at4 _ _ _ _ _ _ _

/-- Witness for C8 at the curry style with concrete inputs. -/
theorem buildRecipe_diet_frame_witness :
    protoKey "curry" = false ∧
    (∃ v n, buildRecipe "curry" ["tofu"] "veg" "hot" = Except.ok v ∧
      buildRecipe "curry" ["tofu"] "nonveg" "hot" = Except.ok n ∧
      v.title = n.title ∧
      v.description = n.description ∧
      v.steps.length = n.steps.length ∧
      v.steps.get? (proteinStepIndex "curry") = some (proteinHint "veg") ∧
      n.steps.get? (proteinStepIndex "curry") = some (proteinHint "nonveg") ∧
      ∀ i : Nat, i ≠ proteinStepIndex "curry" →
        v.steps.get? i = n.steps.get? i) :=
  ⟨rfl, (buildRecipe_diet_frame "curry" ["tofu"] "hot").2 rfl⟩

/-! ## Worked example (C9) -/

/-- C9: for the ingredient text "chicken, garlic, onion" with style
`auto`, no keyword matches, the style resolves to the default `stirfry`,
and building the recipe with diet `nonveg` returns a record titled
exactly "Stir-fry with Chicken". -/
theorem customExample_stirfry_title :
    resolveStyle "auto" (parseIngredients "chicken, garlic, onion") =
      "stirfry" ∧
    Except.map BuiltRecipe.title
      (buildRecipe
        (resolveStyle "auto" (parseIngredients "chicken, garlic, onion"))
        (parseIngredients "chicken, garlic, onion") "nonveg" "mild") =
      Except.ok "Stir-fry with Chicken" :=
  ⟨by decide, rfl⟩

/-! ## Totality and fallback of `buildRecipe` (C10) -/

/-- C10 counterexample: "toString" is not one of the six known styles,
yet `buildRecipe` takes no stir-fry fallback there: the lookup finds the
inherited `Object.prototype.toString` through the prototype chain,
`styleName` does not yield "Recipe", and `buildRecipe` throws a
TypeError at `styleName(style).toLowerCase()` instead of returning a
title and a six-step list. -/
theorem buildRecipe_proto_counterexample :
    knownStyle "toString" = false ∧
    styleName "toString" = Lookup.inherited ∧
    buildRecipe "toString" ["beef"] "nonveg" "mild" = Except.error () :=
  ⟨rfl, rfl, rfl⟩

/-- C10 (amended): over style strings that do not name `Object.prototype`
members, `buildRecipe` is total: for every diet, spice level and
ingredient list it returns a record with a title, a description and a
step list of exactly 6 steps, falling back to the stir-fry step template
and the generic title base "Recipe" when such a style is not one of the
six known styles; for the twelve `Object.prototype` member names the
lookups find truthy inherited members, no fallback is taken, and
`buildRecipe` throws a TypeError. -/
theorem buildRecipe_total_fallback (style diet spice : String)
    (ings : List String) :
    (protoKey style = true →
      buildRecipe style ings diet spice = Except.error ()) ∧
    (protoKey style = false →
      ∃ b, buildRecipe style ings diet spice = Except.ok b ∧
        b.steps.length = 6 ∧
        (knownStyle style = false →
          styleName style = Lookup.val "Recipe" ∧
          b.title = "Recipe with " ++ mainIngredient ings ∧
          ∃ b0, buildRecipe "stirfry" ings diet spice = Except.ok b0 ∧
            b.steps = b0.steps)) := by
  constructor
  · intro hp
    rw [buildRecipe, styleName_proto style hp, stepsFor_proto style _ _ hp]
  · intro hp
    by_cases h1 : style = "stirfry"
    · subst h1
      exact ⟨_, rfl, rfl, fun hk => absurd hk (by decide)⟩
    by_cases h2 : style = "curry"
    · subst h2
      exact ⟨_, rfl, rfl, fun hk => absurd hk (by decide)⟩
    by_cases h3 : style = "pasta"
    · subst h3
      exact ⟨_, rfl, rfl, fun hk => absurd hk (by decide)⟩
    by_cases h4 : style = "salad"
    · subst h4
      exact ⟨_, rfl, rfl, fun hk => absurd hk (by decide)⟩
    by_cases h5 : style = "soup"
    · subst h5
      exact ⟨_, rfl, rfl, fun hk => absurd hk (by decide)⟩
    by_cases h6 : style = "wrap"
    · subst h6
      exact ⟨_, rfl, rfl, fun hk => absurd hk (by decide)⟩
    have e1 := beq_eq_false_iff_ne.mpr h1
    have e2 := beq_eq_false_iff_ne.mpr h2
    have e3 := beq_eq_false_iff_ne.mpr h3
    have e4 := beq_eq_false_iff_ne.mpr h4
    have e5 := beq_eq_false_iff_ne.mpr h5
    have e6 := beq_eq_false_iff_ne.mpr h6
    have hsn := styleName_default style e1 e2 e3 e4 e5 e6 hp
    have hsf := stepsFor_default style
      (if ings.isEmpty then ["oil", "salt", "pepper", "onion"] else ings)
      (proteinHint diet) e2 e3 e4 e5 e6 hp
    have hb : buildRecipe style ings diet spice = Except.ok
        { title := "Recipe" ++ " with " ++ mainIngredient ings,
          description := "A quick " ++ jsToLower "Recipe" ++
            " built from what you have. " ++ spiceNote spice,
          steps :=
            [ "Prep ingredients: chop, slice, and pat dry anything wet.",
              "Heat a pan with oil. Cook aromatics first (onion, garlic, ginger).",
              "Add the rest: " ++ listFew (if ings.isEmpty then
                ["oil", "salt", "pepper", "onion"] else ings) ++
                ". Stir-fry until cooked.",
              "Season with salt, pepper, and optional soy or lemon.",
              proteinHint diet,
              "Serve hot. Finish with herbs or a squeeze of lime." ] } := by
      rw [buildRecipe, hsn, hsf]
    exact ⟨_, hb, rfl, fun hk => ⟨hsn, rfl, _, rfl, rfl⟩⟩

/-- Witness for C10 at the unknown, non-prototype style "tacos". -/
theorem buildRecipe_total_fallback_witness :
    protoKey "tacos" = false ∧
    (∃ b, buildRecipe "tacos" ["beef"] "nonveg" "hot" = Except.ok b ∧
      b.steps.length = 6 ∧
      (knownStyle "tacos" = false →
        styleName "tacos" = Lookup.val "Recipe" ∧
        b.title = "Recipe with " ++ mainIngredient ["beef"] ∧
        ∃ b0, buildRecipe "stirfry" ["beef"] "nonveg" "hot" =
          Except.ok b0 ∧ b.steps = b0.steps)) :=
  ⟨rfl, (buildRecipe_total_fallback "tacos" "nonveg" "hot" ["beef"]).2 rfl⟩

end WorldRecipes
